import Mathlib

/-!
Shallow embedding of the feedback-management backend
(`accounts/models.py`, `feedback/models.py`, `feedback/signals.py`,
`feedback/views.py`) and proofs of the specification claims about it.

Users are identified by numeric ids; Django many-to-many sets are
modelled as duplicate-free `List Nat` manipulated through `m2mAdd` /
`m2mRemove`, which mirror `related_manager.add` / `.remove` set
semantics.  Status, role and vote-type values are the literal strings
the Django models store.  Mutating methods return the updated record
(paired with the `Bool` the Python method returns, where it returns
one).
-/

namespace FM

/-- Role of a user (`accounts/models.py`, `User.Role`). -/
inductive Role where
  | admin
  | moderator
  | contributor
deriving DecidableEq, Repr, BEq

/-- A user as the permission checks see it.  `isAuthenticated` is true for a
real logged-in user and false for Django's `AnonymousUser`. -/
structure SUser where
  uid : Nat
  isAuthenticated : Bool
  role : Role
  username : String
  firstName : String
  lastName : String
  email : String
deriving DecidableEq, Repr

/-- `User.is_admin` property: role equals admin. -/
def SUser.is_admin (u : SUser) : Bool :=
  decide (u.role = Role.admin)

/-- `User.get_full_name`: `f"{self.first_name} {self.last_name}".strip()`. -/
def SUser.get_full_name (u : SUser) : String :=
  (u.firstName ++ " " ++ u.lastName).trim

/-- `Board.Visibility` choices. -/
inductive Visibility where
  | isPublic
  | isPrivate
deriving DecidableEq, Repr, BEq

/-- Set-semantics add of a many-to-many relation (`manager.add(user)`):
no effect when the user is already related. -/
def m2mAdd (l : List Nat) (x : Nat) : List Nat :=
  if x ∈ l then l else l ++ [x]

/-- Set-semantics removal (`manager.remove(user)`): drops the user,
no effect when absent. -/
def m2mRemove (l : List Nat) (x : Nat) : List Nat :=
  l.filter (fun a => a ≠ x)

/-- A board (`feedback/models.py`, `Board`), restricted to the fields the
claims touch. -/
structure Board where
  name : String
  slug : String
  visibility : Visibility
  allowVoting : Bool
  ownerId : Nat
  moderators : List Nat
  members : List Nat
  isActive : Bool
deriving DecidableEq, Repr

/-- `Board.can_access(user)`. -/
def Board.can_access (b : Board) (u : SUser) : Bool :=
  if !b.isActive then false
  else if b.visibility = Visibility.isPublic then true
  else if !u.isAuthenticated then false
  else (u.uid == b.ownerId) || b.moderators.contains u.uid
        || b.members.contains u.uid || u.is_admin

/-- A feedback item (`feedback/models.py`, `Feedback`), restricted to the
fields the claims touch; `status` is the stored status string. -/
structure Feedback where
  board : Board
  status : String
  author : Option SUser
  assignedTo : Option Nat
  upvotes : List Nat
  downvotes : List Nat
  isActive : Bool
  anonymousName : String
  anonymousEmail : String
deriving DecidableEq, Repr

/-- `Feedback.can_vote(user)`. -/
def Feedback.can_vote (f : Feedback) (u : SUser) : Bool :=
  if !u.isAuthenticated then false
  else if !f.board.allowVoting then false
  else if !f.isActive then false
  else true

/-- `Feedback.add_vote(user, vote_type)`: the returned `Bool` is the Python
return value, the `Feedback` the state after the call. -/
def Feedback.add_vote (f : Feedback) (u : SUser) (voteType : String) :
    Bool × Feedback :=
  if !f.can_vote u then (false, f)
  else if voteType == "upvote" then
    (true, { f with upvotes := m2mAdd f.upvotes u.uid,
                    downvotes := m2mRemove f.downvotes u.uid })
  else if voteType == "downvote" then
    (true, { f with downvotes := m2mAdd f.downvotes u.uid,
                    upvotes := m2mRemove f.upvotes u.uid })
  else (false, f)

/-- `Feedback.remove_vote(user)`: unconditionally removes the user from
both vote sets. -/
def Feedback.remove_vote (f : Feedback) (u : SUser) : Feedback :=
  { f with upvotes := m2mRemove f.upvotes u.uid,
           downvotes := m2mRemove f.downvotes u.uid }

/-- `Feedback.author_name` property. -/
def Feedback.author_name (f : Feedback) : String :=
  match f.author with
  | some a => if a.get_full_name ≠ "" then a.get_full_name else a.username
  | none => if f.anonymousName ≠ "" then f.anonymousName else "Anonymous"

/-- `Feedback.author_email` property. -/
def Feedback.author_email (f : Feedback) : String :=
  match f.author with
  | some a => a.email
  | none => f.anonymousEmail

/-- A comment (`feedback/models.py`, `Comment`), restricted to the fields
the vote claims touch. -/
structure SComment where
  feedback : Feedback
  upvotes : List Nat
  downvotes : List Nat
  isActive : Bool
deriving DecidableEq, Repr

/-- `Comment.can_vote(user)`: delegates to the parent feedback's board. -/
def SComment.can_vote (c : SComment) (u : SUser) : Bool :=
  if !u.isAuthenticated then false
  else if !c.feedback.board.allowVoting then false
  else if !c.isActive then false
  else true

/-- `CommentViewSet.vote` (`feedback/views.py`): the serializer rejects a
vote type outside upvote/downvote, `can_vote` gates the mutation, then the
comment's vote sets are updated exactly as in `Feedback.add_vote`.
`none` models an error response (nothing mutated). -/
def commentVoteAction (c : SComment) (u : SUser) (voteType : String) :
    Option SComment :=
  if voteType != "upvote" && voteType != "downvote" then none
  else if !c.can_vote u then none
  else if voteType == "upvote" then
    some { c with upvotes := m2mAdd c.upvotes u.uid,
                  downvotes := m2mRemove c.downvotes u.uid }
  else
    some { c with downvotes := m2mAdd c.downvotes u.uid,
                  upvotes := m2mRemove c.upvotes u.uid }

/-- Vote mutual exclusion: no user is in both vote sets. -/
def votesExclusive (ups downs : List Nat) : Bool :=
  ups.all (fun x => !downs.contains x)

theorem votesExclusive_iff {ups downs : List Nat} :
    votesExclusive ups downs = true ↔ ∀ x ∈ ups, x ∉ downs := by
  simp [votesExclusive]

theorem mem_m2mAdd {l : List Nat} {x y : Nat} :
    y ∈ m2mAdd l x ↔ y ∈ l ∨ y = x := by
  unfold m2mAdd
  split
  · constructor
    · exact fun h => Or.inl h
    · rintro (h | rfl) <;> assumption
  · simp

theorem mem_m2mRemove {l : List Nat} {x y : Nat} :
    y ∈ m2mRemove l x ↔ y ∈ l ∧ y ≠ x := by
  simp [m2mRemove]

theorem exclusive_after_opposite {ups downs : List Nat} {x : Nat}
    (h : votesExclusive ups downs = true) :
    votesExclusive (m2mAdd ups x) (m2mRemove downs x) = true := by
  rw [votesExclusive_iff] at h ⊢
  intro y hy hmem
  rw [mem_m2mRemove] at hmem
  rcases mem_m2mAdd.mp hy with hiu | rfl
  · exact h y hiu hmem.1
  · exact hmem.2 rfl

theorem exclusive_after_remove {ups downs : List Nat} {x : Nat}
    (h : votesExclusive ups downs = true) :
    votesExclusive (m2mRemove ups x) (m2mRemove downs x) = true := by
  rw [votesExclusive_iff] at h ⊢
  intro y hy hmem
  exact h y (mem_m2mRemove.mp hy).1 (mem_m2mRemove.mp hmem).1

/-- One row of `FeedbackStatusHistory` (`feedback/models.py`). -/
structure StatusHistoryRecord where
  old_status : Option String
  new_status : String
  changed_by : Option Nat
  notes : String
deriving DecidableEq, Repr

/-- `track_feedback_status_changes` + `create_status_history_record`
(`feedback/signals.py`): one save of `inst` against the stored row
`existing` (`none` on initial creation, when the pre-save lookup raises
`DoesNotExist`).  Returns the history records the save appends. -/
def feedbackSaveHistory (existing : Option Feedback) (inst : Feedback) :
    List StatusHistoryRecord :=
  match existing with
  | none => []
  | some old =>
    if old.status ≠ inst.status then
      [{ old_status := some old.status,
         new_status := inst.status,
         changed_by := inst.assignedTo,
         notes := "Status changed from " ++ old.status ++ " to " ++ inst.status }]
    else []

/-- A board invitation (`feedback/models.py`, `BoardInvitation`), with the
board it targets embedded so membership changes are visible.  Times are
abstract instants ordered as naturals. -/
structure BoardInvitation where
  board : Board
  email : String
  invitedBy : Nat
  invitedUser : Option Nat
  role : String
  status : String
  expiresAt : Nat
  respondedAt : Option Nat
deriving DecidableEq, Repr

/-- `BoardInvitation.is_expired` at instant `now`: `now > expires_at`. -/
def BoardInvitation.is_expired (inv : BoardInvitation) (now : Nat) : Bool :=
  now > inv.expiresAt

/-- `BoardInvitation.accept(user)` at instant `now`. -/
def BoardInvitation.accept (inv : BoardInvitation) (u : SUser) (now : Nat) :
    Bool × BoardInvitation :=
  if inv.status != "pending" || inv.is_expired now then (false, inv)
  else
    let b :=
      if inv.role == "moderator" then
        { inv.board with moderators := m2mAdd inv.board.moderators u.uid }
      else
        { inv.board with members := m2mAdd inv.board.members u.uid }
    (true, { inv with board := b, status := "accepted", respondedAt := some now })

/-- `BoardInvitation.decline(user)` at instant `now`. -/
def BoardInvitation.decline (inv : BoardInvitation) (_u : SUser) (now : Nat) :
    Bool × BoardInvitation :=
  if inv.status != "pending" || inv.is_expired now then (false, inv)
  else (true, { inv with status := "declined", respondedAt := some now })

/-- Characters `[-\s]` collapsed by `django.utils.text.slugify`. -/
def isSpaceOrHyphen (c : Char) : Bool :=
  c == '-' || c.isWhitespace

/-- Replace every run of whitespace/hyphens by a single hyphen
(the `re.sub(r"[-\s]+", "-", value)` step of `slugify`). -/
def collapseHyphens (l : List Char) : List Char :=
  l.foldr
    (fun c acc =>
      if isSpaceOrHyphen c then
        match acc with
        | '-' :: _ => acc
        | _ => '-' :: acc
      else c :: acc)
    []

/-- `django.utils.text.slugify` on ASCII input: lowercase, drop characters
outside `[\w\s-]`, collapse `[-\s]+` runs to a hyphen, strip leading and
trailing hyphens/underscores. -/
def slugify (s : String) : String :=
  let kept := (s.toList.map Char.toLower).filter
    (fun c => c.isAlphanum || c == '_' || c.isWhitespace || c == '-')
  let collapsed := collapseHyphens kept
  let stripHead := collapsed.dropWhile (fun c => c == '-' || c == '_')
  let stripped :=
    (stripHead.reverse.dropWhile (fun c => c == '-' || c == '_')).reverse
  String.mk stripped

/-- The `k`-th slug tried by `update_board_slug`: the base slug itself,
then `base-1`, `base-2`, …. -/
def slugCandidate (base : String) : Nat → String
  | 0 => base
  | Nat.succ n => base ++ "-" ++ toString (n + 1)

/-- The collision loop of `update_board_slug`, with explicit fuel (the
Python `while` terminates because only finitely many boards exist). -/
def genSlugAux (base : String) (existing : List String) :
    Nat → Nat → Option String
  | 0, _ => none
  | fuel + 1, k =>
    if existing.contains (slugCandidate base k) then
      genSlugAux base existing fuel (k + 1)
    else
      some (slugCandidate base k)

/-- Slug chosen against the slugs of the other boards; fuel
`existing.length + 1` suffices because the candidates are distinct. -/
def genSlug (base : String) (existing : List String) : Option String :=
  genSlugAux base existing (existing.length + 1) 0

/-- `update_board_slug` (`feedback/signals.py`) for a newly created board:
when no slug was provided, slugify the name and resolve collisions with
numeric suffixes; a provided slug is kept as is. -/
def update_board_slug (name : String) (givenSlug : String)
    (existing : List String) : Option String :=
  if givenSlug == "" then genSlug (slugify name) existing else some givenSlug

/-- A sample active public board with voting enabled. -/
def sampleBoard : Board :=
  { name := "Product", slug := "product", visibility := Visibility.isPublic,
    allowVoting := true, ownerId := 1, moderators := [], members := [],
    isActive := true }

/-- A sample authenticated contributor. -/
def alice : SUser :=
  { uid := 2, isAuthenticated := true, role := Role.contributor,
    username := "alice", firstName := "Alice", lastName := "Smith",
    email := "alice@example.com" }

/-- A sample anonymous feedback item on `sampleBoard` with empty anonymous
contact fields and no votes. -/
def sampleFeedback : Feedback :=
  { board := sampleBoard, status := "pending", author := none,
    assignedTo := none, upvotes := [], downvotes := [], isActive := true,
    anonymousName := "", anonymousEmail := "" }

/-- `sampleFeedback` after being assigned and moved to completed. -/
def doneFeedback : Feedback :=
  { sampleFeedback with status := "completed", assignedTo := some 7 }

/-- A sample comment on `sampleFeedback` with no votes. -/
def sampleComment : SComment :=
  { feedback := sampleFeedback, upvotes := [], downvotes := [],
    isActive := true }

/-- A pending member invitation to `sampleBoard` expiring at instant 100. -/
def pendingInvitation : BoardInvitation :=
  { board := sampleBoard, email := "bob@example.com", invitedBy := 1,
    invitedUser := none, role := "member", status := "pending",
    expiresAt := 100, respondedAt := none }

/-- C4: `Board.can_access` denies every user on an inactive board, admits
every user on an active public board, and on an active private board admits
exactly the authenticated users that are the owner, a moderator, a member,
or hold the admin role. -/
theorem can_access_spec (b : Board) (u : SUser) :
    (b.isActive = false → b.can_access u = false)
    ∧ (b.isActive = true → b.visibility = Visibility.isPublic →
        b.can_access u = true)
    ∧ (b.isActive = true → b.visibility = Visibility.isPrivate →
        (b.can_access u = true ↔
          (u.isAuthenticated = true ∧
            (u.uid = b.ownerId ∨ u.uid ∈ b.moderators ∨ u.uid ∈ b.members
              ∨ u.role = Role.admin)))) := by
  refine ⟨fun h => ?_, fun h hv => ?_, fun h hv => ?_⟩
  · simp [Board.can_access, h]
  · simp [Board.can_access, h, hv]
  · cases hu : u.isAuthenticated with
    | false => simp [Board.can_access, SUser.is_admin, h, hv, hu]
    | true =>
      cases hr : u.role <;>
        simp [Board.can_access, SUser.is_admin, h, hv, hu, hr, or_assoc]

/-- C4 witness: the public active `sampleBoard` is accessible to `alice`. -/
theorem can_access_spec_witness :
    sampleBoard.isActive = true
    ∧ sampleBoard.visibility = Visibility.isPublic
    ∧ sampleBoard.can_access alice = true :=
  ⟨rfl, rfl, (can_access_spec sampleBoard alice).2.1 rfl rfl⟩

/-- C5: `Feedback.add_vote` returns false, leaving the feedback unchanged,
exactly when `can_vote` fails or the vote type is invalid; and `can_vote`
fails exactly when the user is unauthenticated, the board forbids voting,
or the feedback is inactive. -/
theorem add_vote_failure_spec (f : Feedback) (u : SUser) (t : String) :
    ((f.add_vote u t).1 = false ↔
      (f.can_vote u = false ∨ (t ≠ "upvote" ∧ t ≠ "downvote")))
    ∧ ((f.add_vote u t).1 = false → (f.add_vote u t).2 = f)
    ∧ (f.can_vote u = false ↔
        (u.isAuthenticated = false ∨ f.board.allowVoting = false
          ∨ f.isActive = false)) := by
  refine ⟨?_, ?_, ?_⟩
  · unfold Feedback.add_vote
    split_ifs with h1 h2 h3 <;> simp_all
  · unfold Feedback.add_vote
    split_ifs <;> simp_all
  · unfold Feedback.can_vote
    split_ifs <;> simp_all

/-- C5 witness: an invalid vote type is rejected without mutating
`sampleFeedback`. -/
theorem add_vote_failure_spec_witness :
    (sampleFeedback.add_vote alice "sideways").1 = false
    ∧ (sampleFeedback.add_vote alice "sideways").2 = sampleFeedback := by
  have h := add_vote_failure_spec sampleFeedback alice "sideways"
  exact ⟨h.1.mpr (Or.inr (by decide)),
         h.2.1 (h.1.mpr (Or.inr (by decide)))⟩

/-- C7: `Feedback.remove_vote` removes the user from both vote sets, is
idempotent, and is the identity when the user holds no vote. -/
theorem remove_vote_spec (f : Feedback) (u : SUser) :
    (u.uid ∉ (f.remove_vote u).upvotes ∧ u.uid ∉ (f.remove_vote u).downvotes)
    ∧ ((f.remove_vote u).remove_vote u = f.remove_vote u)
    ∧ (u.uid ∉ f.upvotes → u.uid ∉ f.downvotes → f.remove_vote u = f) := by
  refine ⟨⟨?_, ?_⟩, ?_, fun h1 h2 => ?_⟩
  · intro h
    exact (mem_m2mRemove.mp h).2 rfl
  · intro h
    exact (mem_m2mRemove.mp h).2 rfl
  · simp [Feedback.remove_vote, m2mRemove, List.filter_filter]
  · cases f
    simp only [Feedback.remove_vote, m2mRemove] at *
    congr 1 <;>
      exact List.filter_eq_self.mpr (fun a ha => by
        simp only [decide_eq_true_eq]
        rintro rfl
        first
          | exact h1 ha
          | exact h2 ha)

/-- C7 witness: removing a vote `alice` never cast leaves `sampleFeedback`
unchanged. -/
theorem remove_vote_spec_witness :
    alice.uid ∉ sampleFeedback.upvotes
    ∧ alice.uid ∉ sampleFeedback.downvotes
    ∧ sampleFeedback.remove_vote alice = sampleFeedback := by
  have h := remove_vote_spec sampleFeedback alice
  exact ⟨by decide, by decide, h.2.2 (by decide) (by decide)⟩

/-- C2: a save of an existing feedback whose status changed appends exactly
one history record carrying the old and new status and the generated note;
a save with an unchanged status appends none, and an initial creation
appends none. -/
theorem status_history_spec (old inst : Feedback) :
    (old.status ≠ inst.status →
      feedbackSaveHistory (some old) inst =
        [{ old_status := some old.status, new_status := inst.status,
           changed_by := inst.assignedTo,
           notes := "Status changed from " ++ old.status ++ " to "
             ++ inst.status }])
    ∧ (old.status = inst.status → feedbackSaveHistory (some old) inst = [])
    ∧ feedbackSaveHistory none inst = [] := by
  refine ⟨fun h => ?_, fun h => ?_, rfl⟩
  · simp [feedbackSaveHistory, h]
  · simp [feedbackSaveHistory, h]

/-- C2 witness: moving `sampleFeedback` from pending to completed appends
the single expected history record. -/
theorem status_history_spec_witness :
    feedbackSaveHistory (some sampleFeedback) doneFeedback =
      [{ old_status := some "pending", new_status := "completed",
         changed_by := some 7,
         notes := "Status changed from pending to completed" }] :=
  (status_history_spec sampleFeedback doneFeedback).1 (by decide)

/-- C6: every status-history record produced by a save is attributed to the
feedback's `assigned_to` at that time, not to the acting request user. -/
theorem status_history_changed_by (existing : Option Feedback)
    (inst : Feedback) (r : StatusHistoryRecord)
    (hr : r ∈ feedbackSaveHistory existing inst) :
    r.changed_by = inst.assignedTo := by
  cases existing with
  | none => simp [feedbackSaveHistory] at hr
  | some old =>
    by_cases h : old.status = inst.status
    · simp [feedbackSaveHistory, h] at hr
    · simp only [feedbackSaveHistory, if_pos h, if_neg h, ne_eq,
        not_false_iff, if_true, List.mem_singleton] at hr
      rw [hr]

/-- C6 witness: the record created by the pending-to-completed save carries
`doneFeedback`'s assignee as `changed_by`. -/
theorem status_history_changed_by_witness :
    ({ old_status := some "pending", new_status := "completed",
       changed_by := some 7,
       notes := "Status changed from pending to completed" } :
        StatusHistoryRecord).changed_by = doneFeedback.assignedTo :=
  status_history_changed_by (some sampleFeedback) doneFeedback _ (by decide)

theorem exclusive_after_opposite_down {ups downs : List Nat} {x : Nat}
    (h : votesExclusive ups downs = true) :
    votesExclusive (m2mRemove ups x) (m2mAdd downs x) = true := by
  rw [votesExclusive_iff] at h ⊢
  intro y hy hmem
  rcases mem_m2mAdd.mp hmem with hid | rfl
  · exact h y (mem_m2mRemove.mp hy).1 hid
  · exact (mem_m2mRemove.mp hy).2 rfl

theorem can_vote_update (f : Feedback) (u : SUser) (ups downs : List Nat) :
    Feedback.can_vote
      { f with upvotes := ups, downvotes := downs } u = f.can_vote u := rfl

/-- C1: every vote mutation (feedback `add_vote` / `remove_vote`, and the
comment vote endpoint) preserves the at-most-one-of-upvotes/downvotes
invariant, and a successful upvote followed by a downvote by the same user
succeeds and leaves the user in downvotes and out of upvotes. -/
theorem vote_mutual_exclusion (f : Feedback) (c : SComment) (u : SUser)
    (t : String)
    (hf : votesExclusive f.upvotes f.downvotes = true)
    (hc : votesExclusive c.upvotes c.downvotes = true) :
    votesExclusive (f.add_vote u t).2.upvotes (f.add_vote u t).2.downvotes
        = true
    ∧ votesExclusive (f.remove_vote u).upvotes (f.remove_vote u).downvotes
        = true
    ∧ (∀ c', commentVoteAction c u t = some c' →
        votesExclusive c'.upvotes c'.downvotes = true)
    ∧ ((f.add_vote u "upvote").1 = true →
        ((f.add_vote u "upvote").2.add_vote u "downvote").1 = true
        ∧ u.uid ∈ ((f.add_vote u "upvote").2.add_vote u "downvote").2.downvotes
        ∧ u.uid ∉ ((f.add_vote u "upvote").2.add_vote u "downvote").2.upvotes) := by
  refine ⟨?_, ?_, ?_, ?_⟩
  · unfold Feedback.add_vote
    split_ifs <;>
      first
        | exact hf
        | exact exclusive_after_opposite hf
        | exact exclusive_after_opposite_down hf
  · exact exclusive_after_remove hf
  · intro c' h
    unfold commentVoteAction at h
    split_ifs at h <;> cases h <;>
      first
        | exact exclusive_after_opposite hc
        | exact exclusive_after_opposite_down hc
  · intro h
    cases hcv : f.can_vote u with
    | false => simp [Feedback.add_vote, hcv] at h
    | true =>
      refine ⟨?_, ?_, ?_⟩
      · simp [Feedback.add_vote, hcv, can_vote_update]
      · simp [Feedback.add_vote, hcv, can_vote_update, mem_m2mAdd]
      · simp [Feedback.add_vote, hcv, can_vote_update, mem_m2mRemove]

/-- C1 witness: on the vote-free `sampleFeedback`, an upvote then a
downvote by `alice` leaves her in downvotes only. -/
theorem vote_mutual_exclusion_witness :
    votesExclusive sampleFeedback.upvotes sampleFeedback.downvotes = true
    ∧ ((sampleFeedback.add_vote alice "upvote").1 = true
        ∧ alice.uid ∈
            ((sampleFeedback.add_vote alice "upvote").2.add_vote alice
              "downvote").2.downvotes
        ∧ alice.uid ∉
            ((sampleFeedback.add_vote alice "upvote").2.add_vote alice
              "downvote").2.upvotes) := by
  have h := vote_mutual_exclusion sampleFeedback sampleComment alice "upvote"
    (by decide) (by decide)
  have hs := h.2.2.2 (by decide)
  exact ⟨by decide, by decide, hs.2.1, hs.2.2⟩

theorem invitation_guard_false_iff (inv : BoardInvitation) (now : Nat) :
    ((inv.status != "pending" || inv.is_expired now) = false) ↔
      (inv.status = "pending" ∧ now ≤ inv.expiresAt) := by
  simp [BoardInvitation.is_expired, Nat.not_lt]

/-- C3: `BoardInvitation.accept` and `decline` succeed exactly on a pending,
unexpired invitation; every failing call leaves the invitation (board
membership, status, `responded_at`) unchanged; a successful `accept` records
the acceptance, stamps `responded_at`, and enrolls the user per the
invitation role; and after a successful `accept` any further `accept` or
`decline` fails with no effect. -/
theorem invitation_accept_decline_spec (inv : BoardInvitation) (u : SUser)
    (now : Nat) :
    ((inv.accept u now).1 = true ↔
      (inv.status = "pending" ∧ now ≤ inv.expiresAt))
    ∧ ((inv.decline u now).1 = true ↔
      (inv.status = "pending" ∧ now ≤ inv.expiresAt))
    ∧ ((inv.accept u now).1 = false → (inv.accept u now).2 = inv)
    ∧ ((inv.decline u now).1 = false → (inv.decline u now).2 = inv)
    ∧ (inv.status = "pending" → now ≤ inv.expiresAt →
        ((inv.accept u now).2.status = "accepted"
          ∧ (inv.accept u now).2.respondedAt = some now
          ∧ (inv.role = "moderator" →
              u.uid ∈ (inv.accept u now).2.board.moderators)
          ∧ (inv.role ≠ "moderator" →
              u.uid ∈ (inv.accept u now).2.board.members)))
    ∧ (∀ (v : SUser) (later : Nat), (inv.accept u now).1 = true →
        (((inv.accept u now).2.accept v later).1 = false
          ∧ ((inv.accept u now).2.accept v later).2 = (inv.accept u now).2
          ∧ ((inv.accept u now).2.decline v later).1 = false
          ∧ ((inv.accept u now).2.decline v later).2
              = (inv.accept u now).2)) := by
  have hguard := invitation_guard_false_iff inv now
  refine ⟨?_, ?_, ?_, ?_, ?_, ?_⟩
  · cases hg : (inv.status != "pending" || inv.is_expired now) with
    | true =>
      have hne : ¬(inv.status = "pending" ∧ now ≤ inv.expiresAt) := by
        intro hcl
        rw [hguard.mpr hcl] at hg
        cases hg
      simp [BoardInvitation.accept, hg, hne]
    | false =>
      obtain ⟨hp, he⟩ := hguard.mp hg
      have hexp : inv.is_expired now = false := by
        simpa [BoardInvitation.is_expired, Nat.not_lt] using he
      simp [BoardInvitation.accept, hp, he, hexp]
  · cases hg : (inv.status != "pending" || inv.is_expired now) with
    | true =>
      have hne : ¬(inv.status = "pending" ∧ now ≤ inv.expiresAt) := by
        intro hcl
        rw [hguard.mpr hcl] at hg
        cases hg
      simp [BoardInvitation.decline, hg, hne]
    | false =>
      obtain ⟨hp, he⟩ := hguard.mp hg
      have hexp : inv.is_expired now = false := by
        simpa [BoardInvitation.is_expired, Nat.not_lt] using he
      simp [BoardInvitation.decline, hp, he, hexp]
  · unfold BoardInvitation.accept
    split_ifs <;> simp
  · unfold BoardInvitation.decline
    split_ifs <;> simp
  · intro hp he
    have hg : (inv.status != "pending" || inv.is_expired now) = false :=
      hguard.mpr ⟨hp, he⟩
    refine ⟨?_, ?_, fun hrole => ?_, fun hrole => ?_⟩
    · simp [BoardInvitation.accept, hg]
    · simp [BoardInvitation.accept, hg]
    · have hb : (inv.role == "moderator") = true := by simp [hrole]
      simp [BoardInvitation.accept, hg, hb, mem_m2mAdd]
    · have hb : (inv.role == "moderator") = false := by simpa using hrole
      simp [BoardInvitation.accept, hg, hb, mem_m2mAdd]
  · intro v later hsucc
    have hg : (inv.status != "pending" || inv.is_expired now) = false := by
      cases hcase : (inv.status != "pending" || inv.is_expired now)
      · rfl
      · simp [BoardInvitation.accept, hcase] at hsucc
    set inv2 := (inv.accept u now).2 with hinv2
    have hstat : inv2.status = "accepted" := by
      rw [hinv2]
      simp [BoardInvitation.accept, hg]
    have hg2 : (inv2.status != "pending" || inv2.is_expired later) = true := by
      have hbne : (("accepted" : String) != "pending") = true := by decide
      rw [hstat, hbne, Bool.true_or]
    refine ⟨?_, ?_, ?_, ?_⟩ <;>
      simp [BoardInvitation.accept, BoardInvitation.decline, hg2]

/-- C3 witness: accepting the pending `pendingInvitation` before its expiry
marks it accepted. -/
theorem invitation_accept_decline_spec_witness :
    pendingInvitation.status = "pending"
    ∧ (50 : Nat) ≤ pendingInvitation.expiresAt
    ∧ (pendingInvitation.accept alice 50).2.status = "accepted" := by
  have h := invitation_accept_decline_spec pendingInvitation alice 50
  exact ⟨rfl, by decide, (h.2.2.2.2.1 rfl (by decide)).1⟩

/-- C10: `accept` enrolls exactly the user passed to it — any user at all —
on any pending, unexpired invitation, regardless of the invitation's email
or `invited_user`. -/
theorem invitation_accept_any_user (inv : BoardInvitation) (u : SUser)
    (now : Nat) (hp : inv.status = "pending") (he : now ≤ inv.expiresAt) :
    (inv.accept u now).1 = true
    ∧ (inv.role = "moderator" →
        u.uid ∈ (inv.accept u now).2.board.moderators)
    ∧ (inv.role ≠ "moderator" →
        u.uid ∈ (inv.accept u now).2.board.members) := by
  have hg : (inv.status != "pending" || inv.is_expired now) = false :=
    (invitation_guard_false_iff inv now).mpr ⟨hp, he⟩
  refine ⟨?_, fun hrole => ?_, fun hrole => ?_⟩
  · simp [BoardInvitation.accept, hg]
  · have hb : (inv.role == "moderator") = true := by simp [hrole]
    simp [BoardInvitation.accept, hg, hb, mem_m2mAdd]
  · have hb : (inv.role == "moderator") = false := by simpa using hrole
    simp [BoardInvitation.accept, hg, hb, mem_m2mAdd]

/-- C10 witness: `alice`, who is neither the invitee email nor
`invited_user` of `pendingInvitation`, is enrolled as a member by
accepting it. -/
theorem invitation_accept_any_user_witness :
    (pendingInvitation.accept alice 50).1 = true
    ∧ alice.uid ∈ (pendingInvitation.accept alice 50).2.board.members := by
  have h := invitation_accept_any_user pendingInvitation alice 50 rfl
    (by decide)
  exact ⟨h.1, h.2.2 (by decide)⟩

/-- C8 counterexample: `sampleFeedback` has no author and empty anonymous
fields, yet `author_email` yields the empty string, not "Anonymous" — only
`author_name` has the "Anonymous" fallback. -/
theorem author_email_no_anonymous_fallback :
    sampleFeedback.author = none
    ∧ sampleFeedback.anonymousEmail = ""
    ∧ sampleFeedback.author_email = ""
    ∧ sampleFeedback.author_email ≠ "Anonymous" := by decide

/-- C8 (amended): `author_name` resolves to the linked user's full name,
falling back to the username, then to `anonymous_name`, then to the literal
"Anonymous"; `author_email` resolves to the linked user's email, falling
back to `anonymous_email` as is — with no "Anonymous" fallback, so an absent
`anonymous_email` yields the empty string. -/
theorem author_identity_spec (f : Feedback) (a : SUser) :
    (f.author = some a → a.get_full_name ≠ "" →
      f.author_name = a.get_full_name)
    ∧ (f.author = some a → a.get_full_name = "" →
      f.author_name = a.username)
    ∧ (f.author = some a → f.author_email = a.email)
    ∧ (f.author = none → f.anonymousName ≠ "" →
      f.author_name = f.anonymousName)
    ∧ (f.author = none → f.anonymousName = "" →
      f.author_name = "Anonymous")
    ∧ (f.author = none → f.author_email = f.anonymousEmail) := by
  refine ⟨fun ha hn => ?_, fun ha hn => ?_, fun ha => ?_,
    fun ha hn => ?_, fun ha hn => ?_, fun ha => ?_⟩
  · simp [Feedback.author_name, ha, hn]
  · simp [Feedback.author_name, ha, hn]
  · simp [Feedback.author_email, ha]
  · simp [Feedback.author_name, ha, hn]
  · simp [Feedback.author_name, ha, hn]
  · simp [Feedback.author_email, ha]

/-- C8 witness: on the anonymous `sampleFeedback` with empty anonymous
fields, the name falls back to "Anonymous" and the email to the stored
(empty) anonymous email. -/
theorem author_identity_spec_witness :
    sampleFeedback.author_name = "Anonymous"
    ∧ sampleFeedback.author_email = sampleFeedback.anonymousEmail := by
  have h := author_identity_spec sampleFeedback alice
  exact ⟨h.2.2.2.2.1 rfl rfl, h.2.2.2.2.2 rfl⟩

theorem genSlugAux_not_mem (base : String) (existing : List String) :
    ∀ (fuel k : Nat) (s : String),
      genSlugAux base existing fuel k = some s → s ∉ existing := by
  intro fuel
  induction fuel with
  | zero =>
    intro k s h
    exact absurd h (by simp [genSlugAux])
  | succ n ih =>
    intro k s h
    rw [genSlugAux] at h
    by_cases hc : existing.contains (slugCandidate base k) = true
    · rw [if_pos hc] at h
      exact ih (k + 1) s h
    · rw [if_neg hc] at h
      cases h
      intro hmem
      exact hc (List.elem_eq_true_of_mem hmem)

/-- C9: a board created without a slug gets the slugified name with
numeric-suffix collision resolution — successive boards with the same name
receive `name`, `name-1`, `name-2` — and any slug the resolver returns is
absent from the existing slugs, so uniqueness is preserved. -/
theorem board_slug_spec :
    (update_board_slug "Name" "" [] = some "name"
      ∧ update_board_slug "Name" "" ["name"] = some "name-1"
      ∧ update_board_slug "Name" "" ["name", "name-1"] = some "name-2")
    ∧ (∀ (base : String) (existing : List String) (s : String),
        genSlug base existing = some s → s ∉ existing) := by
  refine ⟨⟨by decide, by decide, by decide⟩, ?_⟩
  intro base existing s h
  exact genSlugAux_not_mem base existing (existing.length + 1) 0 s h

/-- C9 witness: the slug generated against `name`, `name-1` avoids both. -/
theorem board_slug_spec_witness :
    genSlug "name" ["name", "name-1"] = some "name-2"
    ∧ "name-2" ∉ (["name", "name-1"] : List String) :=
  ⟨by decide,
   board_slug_spec.2 "name" ["name", "name-1"] "name-2" (by decide)⟩

end FM
